import Mathlib

/-!
Verification development for the cxdb server (Rust sources under
`src/server/src/`).  The CQL query subsystem (`cql/ast.rs`, `cql/indexes.rs`,
`cql/executor.rs`, `cql/parser.rs`), the binary protocol framing
(`protocol/mod.rs`) and the HTTP error mapping (`http/mod.rs`) are shallowly
embedded below; theorems about the embedded definitions settle the spec claims.

Modelling conventions:
* Rust `String` / `&str` values that flow through the query engine are
  modelled as `Str := List Char`; `&str` ordering in Rust compares UTF-8
  bytes, which coincides with code-point lexicographic order, modelled here
  by `strLtB`.
* Rust `u64` / `u32` / `u16` are modelled as `Nat`; where wrap-around or
  checked-arithmetic behaviour matters the bound `2 ^ 64` etc. appears
  explicitly.  Debug-profile Rust panics on arithmetic overflow; that
  behaviour is modelled by the `.panic` constructor of `Outcome`.
* Rust `HashSet<u64>` is modelled as `Finset Nat`; `HashMap<K, HashSet<u64>>`
  together with the `get(..).cloned().unwrap_or_default()` access pattern is
  modelled as a total function `K → Finset Nat` (absent keys map to `∅`).
* `f64` literals (`Value::Number`) are modelled as exact rationals; no claim
  below depends on float rounding.
-/

namespace Cxdb

abbrev Str := List Char

/-- Rust byte-wise `&str` comparison `s < t` (`Ord` on `str`), modelled as
code-point lexicographic order on `List Char`. -/
def strLtB : Str → Str → Bool
  | [], [] => false
  | [], _ :: _ => true
  | _ :: _, [] => false
  | a :: as, b :: bs => if a < b then true else if b < a then false else strLtB as bs

/-! ## CQL AST — `src/server/src/cql/ast.rs` -/

/-- `Operator` from `ast.rs`. -/
inductive Operator
  | eq | neq | starts | eqCi | startsCi | gt | gte | lt | lte | inOp
  deriving DecidableEq, Repr

/-- The string produced for an `Operator` by Rust's derived `Debug`
formatting (used in `format!("Operator {:?} ...")` error messages). -/
def Operator.debugStr : Operator → String
  | .eq => "Eq" | .neq => "Neq" | .starts => "Starts" | .eqCi => "EqCi"
  | .startsCi => "StartsCi" | .gt => "Gt" | .gte => "Gte" | .lt => "Lt"
  | .lte => "Lte" | .inOp => "In"

/-- `Value` from `ast.rs`.  The `f64` payload of `Number` is modelled as an
exact rational. -/
inductive Value
  | string (value : Str)
  | number (value : ℚ)
  | date (value : Str) (relative : Bool)
  | list (values : List Value)

/-- `Value::as_string` — note that a `Date` also answers as a string. -/
def Value.asString : Value → Option Str
  | .string v => some v
  | .date v _ => some v
  | _ => none

/-- `Value::as_number`. -/
def Value.asNumber : Value → Option ℚ
  | .number v => some v
  | _ => none

/-- `Value::as_u64`: `self.as_number().map(|n| n as u64)`.  The Rust
`f64 as u64` cast truncates the fraction toward zero and saturates to
`[0, 2^64 - 1]`. -/
def Value.asU64 : Value → Option ℕ
  | .number v => some (if v < 0 then 0 else min v.floor.toNat (2 ^ 64 - 1))
  | _ => none

/-- `Value::as_list`. -/
def Value.asList : Value → Option (List Value)
  | .list vs => some vs
  | _ => none

/-- Whether a value is literally the `Value::String` constructor (the pattern
matched by `execute_is_live`; a `Date` does not match it). -/
def Value.isStringLit : Value → Bool
  | .string _ => true
  | _ => false

/-- `Expression` from `ast.rs`.  Comparison fields are raw strings, resolved
through `FieldName::from_str` at execution time. -/
inductive Expression
  | and (left right : Expression)
  | or (left right : Expression)
  | not (inner : Expression)
  | comparison (field : String) (operator : Operator) (value : Value)

/-- `FieldName` from `ast.rs`. -/
inductive FieldName
  | id | tag | title | label | user | service | host
  | traceId | parent | root | created | depth | isLive
  deriving DecidableEq, Repr

/-- `FieldName::from_str`. -/
def FieldName.fromStr (s : String) : Option FieldName :=
  if s = "id" then some .id
  else if s = "tag" then some .tag
  else if s = "title" then some .title
  else if s = "label" then some .label
  else if s = "user" then some .user
  else if s = "service" then some .service
  else if s = "host" then some .host
  else if s = "trace_id" then some .traceId
  else if s = "parent" then some .parent
  else if s = "root" then some .root
  else if s = "created" then some .created
  else if s = "depth" then some .depth
  else if s = "is_live" then some .isLive
  else none

/-- `CqlErrorType` from `ast.rs`. -/
inductive CqlErrorType
  | syntaxError | unknownField | invalidOperator | invalidValue
  deriving DecidableEq, Repr

/-- `Position` from `ast.rs`. -/
structure Position where
  line : ℕ
  column : ℕ
  offset : ℕ
  deriving DecidableEq, Repr

/-- `CqlError` from `ast.rs`. -/
structure CqlError where
  errorType : CqlErrorType
  message : String
  position : Option Position
  field : Option String
  deriving DecidableEq, Repr

/-! ## Execution outcomes

Rust execution either returns `Ok`, returns a `CqlError`, or panics
(debug-profile arithmetic overflow).  The `.panic` constructor models the
panic; in release builds the same inputs silently wrap instead of producing
a meaningful result. -/

inductive Outcome (α : Type) where
  | ok (a : α)
  | err (e : CqlError)
  | panic (msg : String)
  deriving DecidableEq

/-- The error type of a failed outcome, `none` when the outcome is not
`.err`. -/
def Outcome.errTypeOf {α : Type} : Outcome α → Option CqlErrorType
  | .err e => some e.errorType
  | _ => none

/-! ## Secondary indexes — `src/server/src/cql/indexes.rs`

Maps are modelled as total functions (absent key ↦ `∅`), matching the
`get(..).cloned().unwrap_or_default()` lookups; the `BTreeMap`s used for
`created` / `depth` range queries are modelled as association lists of
`(key, id-set)` entries. -/

structure SecondaryIndexes where
  tag_exact : Str → Finset ℕ
  tag_sorted : List (Str × ℕ)
  tag_lower_exact : Str → Finset ℕ
  tag_lower_sorted : List (Str × ℕ)
  title_exact : Str → Finset ℕ
  title_sorted : List (Str × ℕ)
  title_lower_exact : Str → Finset ℕ
  title_lower_sorted : List (Str × ℕ)
  label_exact : Str → Finset ℕ
  user_exact : Str → Finset ℕ
  user_sorted : List (Str × ℕ)
  user_lower_exact : Str → Finset ℕ
  user_lower_sorted : List (Str × ℕ)
  service_exact : Str → Finset ℕ
  service_sorted : List (Str × ℕ)
  service_lower_exact : Str → Finset ℕ
  service_lower_sorted : List (Str × ℕ)
  host_exact : Str → Finset ℕ
  host_sorted : List (Str × ℕ)
  trace_id_exact : Str → Finset ℕ
  parent_exact : ℕ → Finset ℕ
  root_exact : ℕ → Finset ℕ
  created_btree : List (ℕ × Finset ℕ)
  depth_btree : List (ℕ × Finset ℕ)
  all_context_ids : Finset ℕ

/-- The empty index state (`SecondaryIndexes::default()`). -/
def SecondaryIndexes.empty : SecondaryIndexes where
  tag_exact := fun _ => ∅
  tag_sorted := []
  tag_lower_exact := fun _ => ∅
  tag_lower_sorted := []
  title_exact := fun _ => ∅
  title_sorted := []
  title_lower_exact := fun _ => ∅
  title_lower_sorted := []
  label_exact := fun _ => ∅
  user_exact := fun _ => ∅
  user_sorted := []
  user_lower_exact := fun _ => ∅
  user_lower_sorted := []
  service_exact := fun _ => ∅
  service_sorted := []
  service_lower_exact := fun _ => ∅
  service_lower_sorted := []
  host_exact := fun _ => ∅
  host_sorted := []
  trace_id_exact := fun _ => ∅
  parent_exact := fun _ => ∅
  root_exact := fun _ => ∅
  created_btree := []
  depth_btree := []
  all_context_ids := ∅

namespace SecondaryIndexes

/-- `all_contexts`. -/
def all_contexts (idx : SecondaryIndexes) : Finset ℕ := idx.all_context_ids

/-- `slice::partition_point(|(s, _)| s.as_str() < prefix)`: by its documented
contract, on a slice partitioned with respect to the predicate (which a
sorted slice is) it returns the index of the first element not satisfying
it, i.e. the length of the satisfying prefix run. -/
def partitionPointLt (sorted : List (Str × ℕ)) (pre : Str) : ℕ :=
  (sorted.takeWhile (fun e => strLtB e.1 pre)).length

/-- `prefix_search`: binary-search for the first element `≥ prefix`, then
emit ids while the string starts with the prefix, stopping at the first
mismatch. -/
def prefix_search (sorted : List (Str × ℕ)) (pre : Str) : Finset ℕ :=
  if sorted = [] then ∅
  else
    (((sorted.drop (partitionPointLt sorted pre)).takeWhile
        (fun e => pre.isPrefixOf e.1)).map Prod.snd).toFinset

/-- Association-list model of `BTreeMap::get(&k).cloned().unwrap_or_default()`. -/
def btreeGet (entries : List (ℕ × Finset ℕ)) (key : ℕ) : Finset ℕ :=
  ((entries.find? (fun e => e.1 = key)).map Prod.snd).getD ∅

/-- Union of the id-sets of all entries whose key satisfies `p` (the
`range(..).flat_map(..).collect()` pattern of the `BTreeMap` lookups). -/
def btreeRange (entries : List (ℕ × Finset ℕ)) (p : ℕ → Bool) : Finset ℕ :=
  (entries.filter (fun e => p e.1)).foldr (fun e acc => e.2 ∪ acc) ∅

def lookup_tag_exact (idx : SecondaryIndexes) (v : Str) : Finset ℕ := idx.tag_exact v
def lookup_title_exact (idx : SecondaryIndexes) (v : Str) : Finset ℕ := idx.title_exact v
def lookup_label_exact (idx : SecondaryIndexes) (v : Str) : Finset ℕ := idx.label_exact v
def lookup_user_exact (idx : SecondaryIndexes) (v : Str) : Finset ℕ := idx.user_exact v
def lookup_service_exact (idx : SecondaryIndexes) (v : Str) : Finset ℕ := idx.service_exact v
def lookup_host_exact (idx : SecondaryIndexes) (v : Str) : Finset ℕ := idx.host_exact v
def lookup_trace_id_exact (idx : SecondaryIndexes) (v : Str) : Finset ℕ := idx.trace_id_exact v
def lookup_parent_exact (idx : SecondaryIndexes) (v : ℕ) : Finset ℕ := idx.parent_exact v
def lookup_root_exact (idx : SecondaryIndexes) (v : ℕ) : Finset ℕ := idx.root_exact v

def lookup_tag_exact_ci (idx : SecondaryIndexes) (low : Str → Str) (v : Str) : Finset ℕ :=
  idx.tag_lower_exact (low v)
def lookup_title_exact_ci (idx : SecondaryIndexes) (low : Str → Str) (v : Str) : Finset ℕ :=
  idx.title_lower_exact (low v)
def lookup_user_exact_ci (idx : SecondaryIndexes) (low : Str → Str) (v : Str) : Finset ℕ :=
  idx.user_lower_exact (low v)
def lookup_service_exact_ci (idx : SecondaryIndexes) (low : Str → Str) (v : Str) : Finset ℕ :=
  idx.service_lower_exact (low v)

def lookup_tag_prefix (idx : SecondaryIndexes) (p : Str) : Finset ℕ :=
  prefix_search idx.tag_sorted p
def lookup_tag_prefix_ci (idx : SecondaryIndexes) (low : Str → Str) (p : Str) : Finset ℕ :=
  prefix_search idx.tag_lower_sorted (low p)
def lookup_title_prefix (idx : SecondaryIndexes) (p : Str) : Finset ℕ :=
  prefix_search idx.title_sorted p
def lookup_title_prefix_ci (idx : SecondaryIndexes) (low : Str → Str) (p : Str) : Finset ℕ :=
  prefix_search idx.title_lower_sorted (low p)
def lookup_user_prefix (idx : SecondaryIndexes) (p : Str) : Finset ℕ :=
  prefix_search idx.user_sorted p
def lookup_user_prefix_ci (idx : SecondaryIndexes) (low : Str → Str) (p : Str) : Finset ℕ :=
  prefix_search idx.user_lower_sorted (low p)
def lookup_service_prefix (idx : SecondaryIndexes) (p : Str) : Finset ℕ :=
  prefix_search idx.service_sorted p
def lookup_service_prefix_ci (idx : SecondaryIndexes) (low : Str → Str) (p : Str) : Finset ℕ :=
  prefix_search idx.service_lower_sorted (low p)
def lookup_host_prefix (idx : SecondaryIndexes) (p : Str) : Finset ℕ :=
  prefix_search idx.host_sorted p

def lookup_created_eq (idx : SecondaryIndexes) (ts : ℕ) : Finset ℕ :=
  btreeGet idx.created_btree ts
def lookup_created_gt (idx : SecondaryIndexes) (ts : ℕ) : Finset ℕ :=
  btreeRange idx.created_btree (fun k => ts < k)
def lookup_created_gte (idx : SecondaryIndexes) (ts : ℕ) : Finset ℕ :=
  btreeRange idx.created_btree (fun k => ts ≤ k)
def lookup_created_lt (idx : SecondaryIndexes) (ts : ℕ) : Finset ℕ :=
  btreeRange idx.created_btree (fun k => k < ts)
def lookup_created_lte (idx : SecondaryIndexes) (ts : ℕ) : Finset ℕ :=
  btreeRange idx.created_btree (fun k => k ≤ ts)

def lookup_depth_eq (idx : SecondaryIndexes) (d : ℕ) : Finset ℕ :=
  btreeGet idx.depth_btree d
def lookup_depth_gt (idx : SecondaryIndexes) (d : ℕ) : Finset ℕ :=
  btreeRange idx.depth_btree (fun k => d < k)
def lookup_depth_gte (idx : SecondaryIndexes) (d : ℕ) : Finset ℕ :=
  btreeRange idx.depth_btree (fun k => d ≤ k)
def lookup_depth_lt (idx : SecondaryIndexes) (d : ℕ) : Finset ℕ :=
  btreeRange idx.depth_btree (fun k => k < d)
def lookup_depth_lte (idx : SecondaryIndexes) (d : ℕ) : Finset ℕ :=
  btreeRange idx.depth_btree (fun k => k ≤ d)

end SecondaryIndexes

/-! ## Execution environment

The executor consults ambient facilities of its process: the wall clock
(`SystemTime::now`, milliseconds since the Unix epoch), the two `chrono`
date parsers, and Unicode lowercasing (`str::to_lowercase`).  These are
external to the repository and are threaded through the embedding as an
explicit environment:
* `now` — current time in ms;
* `rfc3339` — `chrono::DateTime::parse_from_rfc3339(..).timestamp_millis()`
  as a partial function to `ℤ` (`i64`);
* `ymdDays` — `chrono::NaiveDate::parse_from_str(.., "%Y-%m-%d")` as a
  partial function to the signed epoch-day count of the parsed date, so that
  midnight UTC of that day is `days * 86_400_000` ms;
* `low` — `str::to_lowercase`.
All claims proved below hold for every instantiation of these functions. -/

structure Env where
  now : ℕ
  rfc3339 : Str → Option ℤ
  ymdDays : Str → Option ℤ
  low : Str → Str

/-- Rust `i64 as u64` (two's-complement wrap). -/
def i64AsU64 (i : ℤ) : ℕ := (i % (2 ^ 64 : ℤ)).toNat

/-- Rust `f64 as u64`: truncates toward zero and saturates to
`[0, 2^64 - 1]` (modelled on the exact rational carried by
`Value.number`). -/
def ratAsU64 (q : ℚ) : ℕ := if q < 0 then 0 else min q.floor.toNat (2 ^ 64 - 1)

/-! ## CQL executor — `src/server/src/cql/executor.rs` -/

/-- The match of `regex` `^-(\d+)([hdm])$` on a string: the captured digit
run (as a number) and the unit character.  (The regex crate's `\d` also
admits non-ASCII Unicode decimal digits, which the subsequent
`parse::<u64>()` then rejects; the embedding models the ASCII fragment.) -/
def matchRelDate : Str → Option (Str × Char)
  | '-' :: rest =>
    match rest.takeWhile Char.isDigit, rest.dropWhile Char.isDigit with
    | [], _ => none
    | ds, [u] => if u = 'h' ∨ u = 'd' ∨ u = 'm' then some (ds, u) else none
    | _, _ => none
  | _ => none

/-- Numeric value of an ASCII digit run (the value `caps[1].parse::<u64>()`
would produce, before its range check). -/
def digitsToNat (ds : Str) : ℕ := ds.foldl (fun a c => a * 10 + (c.toNat - 48)) 0

/-- The milliseconds-per-unit factor of the `match unit` in
`parse_relative_date` (`none` models the unreachable `_` arm). -/
def unitFactor : Char → Option ℕ
  | 'h' => some (60 * 60 * 1000)
  | 'd' => some (24 * 60 * 60 * 1000)
  | 'm' => some (60 * 1000)
  | _ => none

/-- `parse_relative_date` (`executor.rs:548`).  `caps[1].parse::<u64>()`
fails (→ `InvalidValue`) when the digit run exceeds `u64::MAX`; the
subsequent unchecked `u64` multiplication and subtraction are modelled with
explicit `.panic` outcomes for the debug-profile overflow panics (release
builds wrap silently instead, producing a meaningless timestamp). -/
def parse_relative_date (now : ℕ) (s : Str) : Outcome ℕ :=
  match matchRelDate s with
  | none =>
    let t := String.mk s
    .err ⟨.invalidValue, s!"Invalid relative date format: {t}", none, none⟩
  | some (ds, u) =>
    let amount := digitsToNat ds
    if amount ≥ 2 ^ 64 then
      let t := String.mk s
      .err ⟨.invalidValue, s!"Invalid number in relative date: {t}", none, none⟩
    else
      match unitFactor u with
      | none =>
        let tu := String.mk [u]
        .err ⟨.invalidValue, s!"Invalid time unit: {tu}", none, none⟩
      | some factor =>
        let millis := amount * factor
        if millis ≥ 2 ^ 64 then .panic "attempt to multiply with overflow"
        else if now < millis then .panic "attempt to subtract with overflow"
        else .ok (now - millis)

/-- `parse_absolute_date` (`executor.rs:587`): try RFC 3339, then
`YYYY-MM-DD` at midnight UTC; `timestamp_millis()` is an `i64` cast to
`u64`. -/
def parse_absolute_date (env : Env) (s : Str) : Outcome ℕ :=
  match env.rfc3339 s with
  | some ms => .ok (i64AsU64 ms)
  | none =>
    match env.ymdDays s with
    | some days => .ok (i64AsU64 (days * 86400000))
    | none =>
      let t := String.mk s
      .err ⟨.invalidValue, s!"Invalid date format: {t}", none, none⟩

/-- `parse_date_value` (`executor.rs:521`). -/
def parse_date_value (env : Env) : Value → Outcome ℕ
  | .date v relative =>
    if relative then parse_relative_date env.now v else parse_absolute_date env v
  | .string v =>
    match parse_relative_date env.now v with
    | .ok ts => .ok ts
    | .panic m => .panic m
    | .err _ => parse_absolute_date env v
  | .number q => .ok (ratAsU64 q)
  | .list _ => .err ⟨.invalidValue, "Expected date value", none, none⟩

/-- The `StringField` dispatch enum of `executor.rs`. -/
inductive StringField
  | tag | title | user | service | host
  deriving DecidableEq, Repr

def expectedStringErr : CqlError := ⟨.invalidValue, "Expected string value", none, none⟩

def expectedListErr : CqlError :=
  ⟨.invalidValue, "Expected list value for IN operator", none, none⟩

def invalidOpErr (op : Operator) (what : String) : CqlError :=
  let o := op.debugStr
  ⟨.invalidOperator, s!"Operator {o} not supported for {what}", none, none⟩

open SecondaryIndexes in
/-- `execute_string_field` (`executor.rs:77`).  Note the `Host` arms of
`EqCi` / `StartsCi` fall back to the case-sensitive host index ("Host
doesn't have CI index"). -/
def execute_string_field (env : Env) (idx : SecondaryIndexes)
    (operator : Operator) (value : Value) (field : StringField) :
    Outcome (Finset ℕ) :=
  match operator with
  | .eq =>
    match value.asString with
    | none => .err expectedStringErr
    | some s =>
      .ok (match field with
        | .tag => lookup_tag_exact idx s
        | .title => lookup_title_exact idx s
        | .user => lookup_user_exact idx s
        | .service => lookup_service_exact idx s
        | .host => lookup_host_exact idx s)
  | .eqCi =>
    match value.asString with
    | none => .err expectedStringErr
    | some s =>
      .ok (match field with
        | .tag => lookup_tag_exact_ci idx env.low s
        | .title => lookup_title_exact_ci idx env.low s
        | .user => lookup_user_exact_ci idx env.low s
        | .service => lookup_service_exact_ci idx env.low s
        | .host => lookup_host_exact idx s)
  | .starts =>
    match value.asString with
    | none => .err expectedStringErr
    | some s =>
      .ok (match field with
        | .tag => lookup_tag_prefix idx s
        | .title => lookup_title_prefix idx s
        | .user => lookup_user_prefix idx s
        | .service => lookup_service_prefix idx s
        | .host => lookup_host_prefix idx s)
  | .startsCi =>
    match value.asString with
    | none => .err expectedStringErr
    | some s =>
      .ok (match field with
        | .tag => lookup_tag_prefix_ci idx env.low s
        | .title => lookup_title_prefix_ci idx env.low s
        | .user => lookup_user_prefix_ci idx env.low s
        | .service => lookup_service_prefix_ci idx env.low s
        | .host => lookup_host_prefix idx s)
  | .neq =>
    match value.asString with
    | none => .err expectedStringErr
    | some s =>
      let found := match field with
        | .tag => lookup_tag_exact idx s
        | .title => lookup_title_exact idx s
        | .user => lookup_user_exact idx s
        | .service => lookup_service_exact idx s
        | .host => lookup_host_exact idx s
      .ok (idx.all_contexts \ found)
  | .inOp =>
    match value.asList with
    | none => .err expectedListErr
    | some vs =>
      .ok (vs.foldl (fun acc v =>
        match v.asString with
        | some s =>
          acc ∪ (match field with
            | .tag => lookup_tag_exact idx s
            | .title => lookup_title_exact idx s
            | .user => lookup_user_exact idx s
            | .service => lookup_service_exact idx s
            | .host => lookup_host_exact idx s)
        | none => acc) ∅)
  | _ => .err (invalidOpErr operator "string fields")

open SecondaryIndexes in
/-- `execute_id` (`executor.rs:191`). -/
def execute_id (idx : SecondaryIndexes) (operator : Operator) (value : Value) :
    Outcome (Finset ℕ) :=
  match operator with
  | .eq =>
    match value.asU64 with
    | none => .err ⟨.invalidValue, "Expected numeric value for id", none, none⟩
    | some i => .ok (if i ∈ idx.all_contexts then {i} else ∅)
  | .neq =>
    match value.asU64 with
    | none => .err ⟨.invalidValue, "Expected numeric value for id", none, none⟩
    | some i => .ok (idx.all_contexts.erase i)
  | .inOp =>
    match value.asList with
    | none => .err expectedListErr
    | some vs =>
      .ok (vs.foldl (fun acc v =>
        match v.asU64 with
        | some i => if i ∈ idx.all_contexts then insert i acc else acc
        | none => acc) ∅)
  | _ => .err (invalidOpErr operator "id field")

open SecondaryIndexes in
/-- `execute_label` (`executor.rs:247`). -/
def execute_label (idx : SecondaryIndexes) (operator : Operator) (value : Value) :
    Outcome (Finset ℕ) :=
  match operator with
  | .eq =>
    match value.asString with
    | none => .err expectedStringErr
    | some s => .ok (lookup_label_exact idx s)
  | .neq =>
    match value.asString with
    | none => .err expectedStringErr
    | some s => .ok (idx.all_contexts \ lookup_label_exact idx s)
  | .inOp =>
    match value.asList with
    | none => .err expectedListErr
    | some vs =>
      .ok (vs.foldl (fun acc v =>
        match v.asString with
        | some s => acc ∪ lookup_label_exact idx s
        | none => acc) ∅)
  | _ => .err (invalidOpErr operator "label field")

open SecondaryIndexes in
/-- `execute_trace_id` (`executor.rs:296`). -/
def execute_trace_id (idx : SecondaryIndexes) (operator : Operator) (value : Value) :
    Outcome (Finset ℕ) :=
  match operator with
  | .eq =>
    match value.asString with
    | none => .err expectedStringErr
    | some s => .ok (lookup_trace_id_exact idx s)
  | .neq =>
    match value.asString with
    | none => .err expectedStringErr
    | some s => .ok (idx.all_contexts \ lookup_trace_id_exact idx s)
  | _ => .err (invalidOpErr operator "trace_id field")

open SecondaryIndexes in
/-- `execute_parent` (`executor.rs:330`). -/
def execute_parent (idx : SecondaryIndexes) (operator : Operator) (value : Value) :
    Outcome (Finset ℕ) :=
  match operator with
  | .eq =>
    match value.asU64 with
    | none => .err ⟨.invalidValue, "Expected numeric value for parent", none, none⟩
    | some i => .ok (lookup_parent_exact idx i)
  | .neq =>
    match value.asU64 with
    | none => .err ⟨.invalidValue, "Expected numeric value for parent", none, none⟩
    | some i => .ok (idx.all_contexts \ lookup_parent_exact idx i)
  | .inOp =>
    match value.asList with
    | none => .err expectedListErr
    | some vs =>
      .ok (vs.foldl (fun acc v =>
        match v.asU64 with
        | some i => acc ∪ lookup_parent_exact idx i
        | none => acc) ∅)
  | _ => .err (invalidOpErr operator "parent field")

open SecondaryIndexes in
/-- `execute_root` (`executor.rs:379`). -/
def execute_root (idx : SecondaryIndexes) (operator : Operator) (value : Value) :
    Outcome (Finset ℕ) :=
  match operator with
  | .eq =>
    match value.asU64 with
    | none => .err ⟨.invalidValue, "Expected numeric value for root", none, none⟩
    | some i => .ok (lookup_root_exact idx i)
  | .neq =>
    match value.asU64 with
    | none => .err ⟨.invalidValue, "Expected numeric value for root", none, none⟩
    | some i => .ok (idx.all_contexts \ lookup_root_exact idx i)
  | .inOp =>
    match value.asList with
    | none => .err expectedListErr
    | some vs =>
      .ok (vs.foldl (fun acc v =>
        match v.asU64 with
        | some i => acc ∪ lookup_root_exact idx i
        | none => acc) ∅)
  | _ => .err (invalidOpErr operator "root field")

open SecondaryIndexes in
/-- `execute_created` (`executor.rs:428`): the value is parsed as a date
before the operator is inspected. -/
def execute_created (env : Env) (idx : SecondaryIndexes)
    (operator : Operator) (value : Value) : Outcome (Finset ℕ) :=
  match parse_date_value env value with
  | .err e => .err e
  | .panic m => .panic m
  | .ok ts =>
    match operator with
    | .eq => .ok (lookup_created_eq idx ts)
    | .neq => .ok (idx.all_contexts \ lookup_created_eq idx ts)
    | .gt => .ok (lookup_created_gt idx ts)
    | .gte => .ok (lookup_created_gte idx ts)
    | .lt => .ok (lookup_created_lt idx ts)
    | .lte => .ok (lookup_created_lte idx ts)
    | _ => .err (invalidOpErr operator "created field")

open SecondaryIndexes in
/-- `execute_depth` (`executor.rs:454`): `value.as_u64()? as u32`. -/
def execute_depth (idx : SecondaryIndexes)
    (operator : Operator) (value : Value) : Outcome (Finset ℕ) :=
  match value.asU64 with
  | none => .err ⟨.invalidValue, "Expected numeric value for depth", none, none⟩
  | some n =>
    let d := n % 2 ^ 32
    match operator with
    | .eq => .ok (lookup_depth_eq idx d)
    | .neq => .ok (idx.all_contexts \ lookup_depth_eq idx d)
    | .gt => .ok (lookup_depth_gt idx d)
    | .gte => .ok (lookup_depth_gte idx d)
    | .lt => .ok (lookup_depth_lt idx d)
    | .lte => .ok (lookup_depth_lte idx d)
    | _ => .err (invalidOpErr operator "depth field")

/-- `execute_is_live` (`executor.rs:485`): the value is inspected (only a
literal `Value::String` is accepted) before the operator is checked. -/
def execute_is_live (idx : SecondaryIndexes) (live : Finset ℕ)
    (operator : Operator) (value : Value) : Outcome (Finset ℕ) :=
  match value with
  | .string v =>
    let isLive := v = "true".data
    match operator with
    | .eq => .ok (if isLive then live else idx.all_contexts \ live)
    | _ => .err (invalidOpErr operator "is_live field")
  | _ => .err ⟨.invalidValue, "Expected boolean value for is_live", none, none⟩

/-- The per-field dispatch of `execute_comparison` (`executor.rs:52`),
after `FieldName::from_str` has succeeded. -/
def execute_field (env : Env) (idx : SecondaryIndexes) (live : Finset ℕ)
    (fn : FieldName) (operator : Operator) (value : Value) : Outcome (Finset ℕ) :=
  match fn with
  | .id => execute_id idx operator value
  | .tag => execute_string_field env idx operator value .tag
  | .title => execute_string_field env idx operator value .title
  | .label => execute_label idx operator value
  | .user => execute_string_field env idx operator value .user
  | .service => execute_string_field env idx operator value .service
  | .host => execute_string_field env idx operator value .host
  | .traceId => execute_trace_id idx operator value
  | .parent => execute_parent idx operator value
  | .root => execute_root idx operator value
  | .created => execute_created env idx operator value
  | .depth => execute_depth idx operator value
  | .isLive => execute_is_live idx live operator value

/-- `execute_comparison` (`executor.rs:38`). -/
def execute_comparison (env : Env) (idx : SecondaryIndexes) (live : Finset ℕ)
    (field : String) (operator : Operator) (value : Value) : Outcome (Finset ℕ) :=
  match FieldName.fromStr field with
  | none => .err ⟨.unknownField, s!"Unknown field: {field}", none, some field⟩
  | some fn => execute_field env idx live fn operator value

/-- `execute` (`executor.rs:12`): recursive set-algebra evaluation. -/
def execute (env : Env) (idx : SecondaryIndexes) (live : Finset ℕ) :
    Expression → Outcome (Finset ℕ)
  | .and l r =>
    match execute env idx live l with
    | .ok a =>
      match execute env idx live r with
      | .ok b => .ok (a ∩ b)
      | e => e
    | e => e
  | .or l r =>
    match execute env idx live l with
    | .ok a =>
      match execute env idx live r with
      | .ok b => .ok (a ∪ b)
      | e => e
    | e => e
  | .not inner =>
    match execute env idx live inner with
    | .ok a => .ok (idx.all_contexts \ a)
    | e => e
  | .comparison field operator value =>
    execute_comparison env idx live field operator value

/-! ## Spec-side characterisations (for refinement claims)

These definitions follow the specification's words, to be compared with the
executable embeddings above. -/

/-- Spec reading of prefix search: "exactly the contexts whose field value
begins with `p`" — the ids of all indexed `(value, id)` pairs whose value
starts with `p`. -/
def specPrefixSet (v : List (Str × ℕ)) (p : Str) : Finset ℕ :=
  ((v.filter fun e => p.isPrefixOf e.1).map Prod.snd).toFinset

/-- Spec reading of case-insensitive prefix search: the ids of all indexed
pairs whose lowercased value starts with the lowercased query. -/
def specPrefixSetCi (low : Str → Str) (v : List (Str × ℕ)) (p : Str) : Finset ℕ :=
  ((v.filter fun e => (low p).isPrefixOf (low e.1)).map Prod.snd).toFinset

/-- The field-name string of a `StringField` (as written in a query). -/
def StringField.fieldStr : StringField → String
  | .tag => "tag" | .title => "title" | .user => "user"
  | .service => "service" | .host => "host"

/-- The case-sensitive sorted vector consulted by `^=` for a string field. -/
def csVecOf (idx : SecondaryIndexes) : StringField → List (Str × ℕ)
  | .tag => idx.tag_sorted
  | .title => idx.title_sorted
  | .user => idx.user_sorted
  | .service => idx.service_sorted
  | .host => idx.host_sorted

/-- The vector consulted by `^~=` for a string field — for `host` this is
the case-sensitive `host_sorted` (there is no lowercased host index). -/
def ciVecOf (idx : SecondaryIndexes) : StringField → List (Str × ℕ)
  | .tag => idx.tag_lower_sorted
  | .title => idx.title_lower_sorted
  | .user => idx.user_lower_sorted
  | .service => idx.service_lower_sorted
  | .host => idx.host_sorted

/-- Nondecreasing-by-key, the invariant `sort_indexes` establishes on the
sorted vectors (`sort_by(|a, b| a.0.cmp(&b.0))`). -/
def sortedByStr (v : List (Str × ℕ)) : Prop :=
  v.Pairwise (fun a b => strLtB b.1 a.1 = false)

instance (v : List (Str × ℕ)) : Decidable (sortedByStr v) := by
  unfold sortedByStr; infer_instance

/-! ## Binary protocol framing — `src/server/src/protocol/mod.rs`

The byte stream is modelled as `List ℕ` (each element `< 256`); the
`byteorder` little-endian readers consume from the front and return the
rest of the stream. -/

namespace Protocol

/-- `StoreError` (`src/server/src/error.rs`), with the `io::Error` payload
reduced to its message (`ioErr` models the `Io` variant). -/
inductive StoreErr
  | ioErr (msg : String)
  | corrupt (msg : String)
  | notFound (msg : String)
  | invalidInput (msg : String)
  deriving DecidableEq, Repr

/-- Result of a fallible protocol read. -/
inductive PResult (α : Type) where
  | ok (a : α)
  | error (e : StoreErr)
  deriving DecidableEq, Repr

/-- `MAX_FRAME_SIZE`: 64 MiB. -/
def MAX_FRAME_SIZE : ℕ := 64 * 1024 * 1024

/-- The `io::Error` every short read surfaces (modelled by its standard
message; only the `Io` kind matters to the claims). -/
def eofErr : StoreErr := .ioErr "failed to fill whole buffer"

/-- Take exactly `n` bytes from the stream (`read_exact`), failing on a
short stream. -/
def readBytes (n : ℕ) (input : List ℕ) : Option (List ℕ × List ℕ) :=
  if input.length < n then none else some (input.take n, input.drop n)

/-- Value of a little-endian byte run. -/
def leVal (bs : List ℕ) : ℕ := bs.foldr (fun b acc => b + 256 * acc) 0

/-- Read a `w`-byte little-endian scalar. -/
def readLE (w : ℕ) (input : List ℕ) : Option (ℕ × List ℕ) :=
  match readBytes w input with
  | none => none
  | some (bs, rest) => some (leVal bs, rest)

/-- `read_u16::<LittleEndian>`. -/
def readU16 (input : List ℕ) : Option (ℕ × List ℕ) := readLE 2 input
/-- `read_u32::<LittleEndian>`. -/
def readU32 (input : List ℕ) : Option (ℕ × List ℕ) := readLE 4 input
/-- `read_u64::<LittleEndian>`. -/
def readU64 (input : List ℕ) : Option (ℕ × List ℕ) := readLE 8 input

/-- Little-endian encoding of the low `w` bytes of `n` (`write_uNN`). -/
def encodeLE : ℕ → ℕ → List ℕ
  | 0, _ => []
  | w + 1, n => n % 256 :: encodeLE w (n / 256)

/-- `FrameHeader`. -/
structure FrameHeader where
  len : ℕ
  msg_type : ℕ
  flags : ℕ
  req_id : ℕ
  deriving DecidableEq, Repr

/-- The `InvalidInput` produced by the frame-size check
(`format!("frame size {} exceeds maximum {}", len, MAX_FRAME_SIZE)`). -/
def frameSizeErr (len : ℕ) : StoreErr :=
  .invalidInput s!"frame size {len} exceeds maximum 67108864"

/-- The part of `read_frame` that runs after the size check has passed:
read `msg_type`, `flags`, `req_id`, then exactly `len` payload bytes. -/
def read_frame_body (len : ℕ) (input : List ℕ) :
    PResult ((FrameHeader × List ℕ) × List ℕ) :=
  match readU16 input with
  | none => .error eofErr
  | some (msg_type, r1) =>
    match readU16 r1 with
    | none => .error eofErr
    | some (flags, r2) =>
      match readU64 r2 with
      | none => .error eofErr
      | some (req_id, r3) =>
        match readBytes len r3 with
        | none => .error eofErr
        | some (payload, rest) =>
          .ok ((⟨len, msg_type, flags, req_id⟩, payload), rest)

/-- `read_frame` (`protocol/mod.rs:79`): read the declared length, reject
frames over `MAX_FRAME_SIZE` with `InvalidInput` before reading anything
else, then read header fields and payload. -/
def read_frame (input : List ℕ) : PResult ((FrameHeader × List ℕ) × List ℕ) :=
  match readU32 input with
  | none => .error eofErr
  | some (len, rest) =>
    if len > MAX_FRAME_SIZE then .error (frameSizeErr len)
    else read_frame_body len rest

/-- `write_frame` (`protocol/mod.rs:101`): `payload.len() as u32`
little-endian, then `msg_type`, `flags`, `req_id`, then the payload
bytes. -/
def write_frame (msg_type flags req_id : ℕ) (payload : List ℕ) : List ℕ :=
  encodeLE 4 payload.length ++ encodeLE 2 msg_type ++ encodeLE 2 flags ++
    encodeLE 8 req_id ++ payload

/-! ### HTTP error mapping — `src/server/src/http/mod.rs` -/

/-- Rust `str::contains(pattern)`: the pattern occurs as a contiguous
substring. -/
def containsSub (pat hay : Str) : Bool := hay.tails.any (fun t => pat.isPrefixOf t)

/-- `map_error` (`http/mod.rs:963`): status code and detail for a
`StoreError`. -/
def map_error : StoreErr → ℕ × String
  | .notFound msg =>
    if containsSub "type descriptor".data msg.data then (424, msg) else (404, msg)
  | .invalidInput msg => (422, msg)
  | .corrupt msg => (500, msg)
  | .ioErr msg => (500, msg)

end Protocol

/-! ## CQL lexer and parser — `src/server/src/cql/parser.rs`

The lexer's character state (`chars` iterator + `pos`/`line`/`column`) is
modelled by `LexState`.  Rust's `char::is_whitespace` (Unicode
`White_Space`) is enumerated exactly; `char::is_alphabetic` /
`char::is_alphanumeric` and `str::to_uppercase` / `to_lowercase` are
Unicode-aware in Rust and are modelled here on their ASCII fragment (all
CQL keywords, field names and operator characters are ASCII). -/

/-- Lexer state: remaining input plus the 1-based line/column and byte
offset of the next character. -/
structure LexState where
  rest : Str
  line : ℕ
  column : ℕ
  offset : ℕ
  deriving DecidableEq, Repr

/-- Line number after consuming `c` (`advance`). -/
def stepLine (l : ℕ) (c : Char) : ℕ := if c = '\n' then l + 1 else l

/-- Column number after consuming `c` (`advance`). -/
def stepCol (co : ℕ) (c : Char) : ℕ := if c = '\n' then 1 else co + 1

/-- `current_position`. -/
def LexState.pos (st : LexState) : Position := ⟨st.line, st.column, st.offset⟩

/-- Consume one character, updating position (`Lexer::advance`). -/
def lexAdv (c : Char) (rs : Str) (l co o : ℕ) : LexState :=
  ⟨rs, stepLine l c, stepCol co c, o + c.utf8Size⟩

/-- Rust `char::is_whitespace`: the Unicode `White_Space` code points. -/
def rustIsWhitespace (c : Char) : Bool :=
  let n := c.toNat
  n == 0x09 || n == 0x0A || n == 0x0B || n == 0x0C || n == 0x0D || n == 0x20 ||
  n == 0x85 || n == 0xA0 || n == 0x1680 ||
  (decide (0x2000 ≤ n) && decide (n ≤ 0x200A)) ||
  n == 0x2028 || n == 0x2029 || n == 0x202F || n == 0x205F || n == 0x3000

/-- `skip_whitespace`. -/
def skipWs : Str → ℕ → ℕ → ℕ → LexState
  | [], l, co, o => ⟨[], l, co, o⟩
  | c :: rs, l, co, o =>
    if rustIsWhitespace c then skipWs rs (stepLine l c) (stepCol co c) (o + c.utf8Size)
    else ⟨c :: rs, l, co, o⟩

/-- Token types (`TokenType`). -/
inductive TokenType
  | and | or | not | inTok | lparen | rparen | comma
  | eq | neq | starts | eqCi | startsCi | gt | gte | lt | lte
  | string (s : Str)
  | number (n : ℚ)
  | ident (s : String)
  | eof
  deriving DecidableEq, Repr

/-- `std::mem::discriminant` equality on token types (`Parser::check`). -/
def TokenType.kindEq : TokenType → TokenType → Bool
  | .and, .and | .or, .or | .not, .not | .inTok, .inTok => true
  | .lparen, .lparen | .rparen, .rparen | .comma, .comma => true
  | .eq, .eq | .neq, .neq | .starts, .starts | .eqCi, .eqCi => true
  | .startsCi, .startsCi | .gt, .gt | .gte, .gte | .lt, .lt | .lte, .lte => true
  | .string _, .string _ | .number _, .number _ | .ident _, .ident _ => true
  | .eof, .eof => true
  | _, _ => false

/-- `Token`. -/
structure Token where
  tokenType : TokenType
  position : Position
  deriving DecidableEq, Repr

/-- Escape mapping inside `read_string`: `\n`, `\t`, `\r` are translated;
`\\`, `\"`, `\'` and every other escaped character map to themselves. -/
def escapeChar (e : Char) : Char :=
  if e = 'n' then '\n' else if e = 't' then '\t' else if e = 'r' then '\r' else e

/-- The loop of `read_string`, entered after the opening quote has been
consumed; returns the string contents and the state after the closing
quote. -/
def readStringGo (quote : Char) (startPos : Position) (acc : Str) :
    Str → ℕ → ℕ → ℕ → Except CqlError (Str × LexState)
  | [], _, _, _ =>
    let sl := startPos.line
    let sc := startPos.column
    .error ⟨.syntaxError, s!"Unterminated string starting at line {sl}, column {sc}",
      some startPos, none⟩
  | c :: rs, l, co, o =>
    if c = quote then .ok (acc.reverse, lexAdv c rs l co o)
    else if c = '\\' then
      match rs with
      | [] =>
        .error ⟨.syntaxError, "Unterminated escape sequence",
          some (lexAdv c rs l co o).pos, none⟩
      | e :: rs' =>
        readStringGo quote startPos (escapeChar e :: acc) rs'
          (stepLine (stepLine l c) e) (stepCol (stepCol co c) e)
          (o + c.utf8Size + e.utf8Size)
    else readStringGo quote startPos (c :: acc) rs
      (stepLine l c) (stepCol co c) (o + c.utf8Size)

/-- Exact decimal value of the number text (`num_str.parse::<f64>()` is
modelled exactly as a rational; no claim depends on `f64` rounding). -/
def decimalVal (ints fr : Str) (neg : Bool) : ℚ :=
  let q : ℚ := (digitsToNat ints : ℚ) + (digitsToNat fr : ℚ) / ((10 : ℚ) ^ fr.length)
  if neg then -q else q

/-- `read_number`: optional `-`, digits, optional `.` plus digits.  All
consumed characters are single-byte, non-newline ASCII. -/
def readNumber (input : Str) (l co o : ℕ) : Token × LexState :=
  let startPos : Position := ⟨l, co, o⟩
  let (neg, r1) : Bool × Str :=
    match input with
    | '-' :: rs => (true, rs)
    | _ => (false, input)
  let ints := r1.takeWhile Char.isDigit
  let r2 := r1.dropWhile Char.isDigit
  let (hasDot, fr, r3) : Bool × Str × Str :=
    match r2 with
    | '.' :: rs => (true, rs.takeWhile Char.isDigit, rs.dropWhile Char.isDigit)
    | _ => (false, [], r2)
  let consumed := (if neg then 1 else 0) + ints.length + (if hasDot then 1 else 0) + fr.length
  (⟨.number (decimalVal ints fr neg), startPos⟩, ⟨r3, l, co + consumed, o + consumed⟩)

/-- ASCII fragment of `str::to_uppercase` (identifier characters admitted
by the lexer are ASCII). -/
def asciiUpperChar (c : Char) : Char :=
  if 'a' ≤ c ∧ c ≤ 'z' then Char.ofNat (c.toNat - 32) else c

/-- ASCII fragment of `str::to_lowercase`. -/
def asciiLowerChar (c : Char) : Char :=
  if 'A' ≤ c ∧ c ≤ 'Z' then Char.ofNat (c.toNat + 32) else c

/-- ASCII lowercase of a whole string. -/
def asciiLowerStr (s : Str) : Str := s.map asciiLowerChar

/-- `read_identifier`: alphanumeric-or-underscore run; `AND` / `OR` /
`NOT` / `IN` (uppercased) are keywords, anything else is an identifier. -/
def readIdent (input : Str) (l co o : ℕ) : Token × LexState :=
  let startPos : Position := ⟨l, co, o⟩
  let chars := input.takeWhile (fun c => c.isAlphanum || c = '_')
  let rest := input.dropWhile (fun c => c.isAlphanum || c = '_')
  let upper := String.mk (chars.map asciiUpperChar)
  let tt : TokenType :=
    if upper = "AND" then .and
    else if upper = "OR" then .or
    else if upper = "NOT" then .not
    else if upper = "IN" then .inTok
    else .ident (String.mk chars)
  (⟨tt, startPos⟩, ⟨rest, l, co + chars.length, o + chars.length⟩)

/-- `next_token` (`parser.rs:228`). -/
def next_token (st : LexState) : Except CqlError (Token × LexState) :=
  match skipWs st.rest st.line st.column st.offset with
  | ⟨[], l, co, o⟩ => .ok (⟨.eof, ⟨l, co, o⟩⟩, ⟨[], l, co, o⟩)
  | ⟨c :: rs, l, co, o⟩ =>
    let startPos : Position := ⟨l, co, o⟩
    if c = Char.ofNat 34 ∨ c = Char.ofNat 39 then
      match readStringGo c startPos [] rs (stepLine l c) (stepCol co c) (o + c.utf8Size) with
      | .error e => .error e
      | .ok (content, st') => .ok (⟨.string content, startPos⟩, st')
    else if c.isDigit || (c = '-' && (match rs with | d :: _ => d.isDigit | [] => false)) then
      .ok (readNumber (c :: rs) l co o)
    else if c.isAlpha ∨ c = '_' then
      .ok (readIdent (c :: rs) l co o)
    else if c = '(' then .ok (⟨.lparen, startPos⟩, lexAdv c rs l co o)
    else if c = ')' then .ok (⟨.rparen, startPos⟩, lexAdv c rs l co o)
    else if c = ',' then .ok (⟨.comma, startPos⟩, lexAdv c rs l co o)
    else if c = '=' then .ok (⟨.eq, startPos⟩, lexAdv c rs l co o)
    else if c = '!' then
      match rs with
      | '=' :: rs2 =>
        .ok (⟨.neq, startPos⟩, lexAdv '=' rs2 (stepLine l c) (stepCol co c) (o + c.utf8Size))
      | _ =>
        .error ⟨.syntaxError, s!"Expected '=' after '!' at line {l}, column {co}",
          some startPos, none⟩
    else if c = '^' then
      match rs with
      | '~' :: '=' :: rs3 =>
        .ok (⟨.startsCi, startPos⟩,
          lexAdv '=' rs3 (stepLine (stepLine l c) '~') (stepCol (stepCol co c) '~')
            (o + c.utf8Size + 1))
      | '~' :: _ =>
        .error ⟨.syntaxError, s!"Expected '=' after '^~' at line {l}, column {co}",
          some startPos, none⟩
      | '=' :: rs2 =>
        .ok (⟨.starts, startPos⟩, lexAdv '=' rs2 (stepLine l c) (stepCol co c) (o + c.utf8Size))
      | _ =>
        .error ⟨.syntaxError, s!"Expected '=' or '~=' after '^' at line {l}, column {co}",
          some startPos, none⟩
    else if c = '~' then
      match rs with
      | '=' :: rs2 =>
        .ok (⟨.eqCi, startPos⟩, lexAdv '=' rs2 (stepLine l c) (stepCol co c) (o + c.utf8Size))
      | _ =>
        .error ⟨.syntaxError, s!"Expected '=' after '~' at line {l}, column {co}",
          some startPos, none⟩
    else if c = '>' then
      match rs with
      | '=' :: rs2 =>
        .ok (⟨.gte, startPos⟩, lexAdv '=' rs2 (stepLine l c) (stepCol co c) (o + c.utf8Size))
      | _ => .ok (⟨.gt, startPos⟩, lexAdv c rs l co o)
    else if c = '<' then
      match rs with
      | '=' :: rs2 =>
        .ok (⟨.lte, startPos⟩, lexAdv '=' rs2 (stepLine l c) (stepCol co c) (o + c.utf8Size))
      | _ => .ok (⟨.lt, startPos⟩, lexAdv c rs l co o)
    else
      .error ⟨.syntaxError, s!"Unexpected character '{c}' at line {l}, column {co}",
        some startPos, none⟩

/-- The `tokenize` loop.  `fuel` is a modelling artifact: every non-EOF
token consumes at least one character, so the generous fuel supplied by
`tokenize` is never exhausted and the fuel error is unreachable. -/
def tokenizeGo : ℕ → LexState → List Token → Except CqlError (List Token)
  | 0, _, _ => .error ⟨.syntaxError, "lexer fuel exhausted (unreachable)", none, none⟩
  | fuel + 1, st, acc =>
    match next_token st with
    | .error e => .error e
    | .ok (tok, st') =>
      if tok.tokenType.kindEq .eof then .ok (tok :: acc).reverse
      else tokenizeGo fuel st' (tok :: acc)

/-- `Lexer::tokenize`. -/
def tokenize (input : Str) : Except CqlError (List Token) :=
  tokenizeGo (input.length + 2) ⟨input, 1, 1, 0⟩ []

/-- `CqlQuery`. -/
structure CqlQuery where
  raw : Str
  ast : Expression

/-- The default `Eof` token `Parser::current` substitutes past the end. -/
def eofToken : Token := ⟨.eof, ⟨1, 1, 0⟩⟩

/-- `Parser::current` for a parser at position `pos`. -/
def currentTok (tokens : List Token) (pos : ℕ) : Token := tokens.getD pos eofToken

/-- The operator mapping of `parse_comparison`. -/
def opOfToken : TokenType → Option Operator
  | .eq => some .eq
  | .neq => some .neq
  | .starts => some .starts
  | .eqCi => some .eqCi
  | .startsCi => some .startsCi
  | .gt => some .gt
  | .gte => some .gte
  | .lt => some .lt
  | .lte => some .lte
  | .inTok => some .inOp
  | _ => none

/-- The unreachable parser-fuel error (see `parseStep`). -/
def fuelParseErr : CqlError :=
  ⟨.syntaxError, "parser fuel exhausted (unreachable)", none, none⟩

/-- `parse_value` (`parser.rs:618`): a string literal matching
`^-(\d+)([hdm])$` becomes a relative `Date`, any other string literal a
plain `String`; `true`/`false` identifiers become lowercased strings. -/
def parseValue (tokens : List Token) (pos : ℕ) : Except CqlError (Value × ℕ) :=
  let tok := currentTok tokens pos
  match tok.tokenType with
  | .string s =>
    .ok (if (matchRelDate s).isSome then Value.date s true else Value.string s, pos + 1)
  | .number n => .ok (.number n, pos + 1)
  | .ident s =>
    if String.mk (asciiLowerStr s.data) = "true" ∨ String.mk (asciiLowerStr s.data) = "false"
    then .ok (.string (asciiLowerStr s.data), pos + 1)
    else .error ⟨.syntaxError, "Expected value", some tok.position, none⟩
  | _ => .error ⟨.syntaxError, "Expected value", some tok.position, none⟩

/-- The comma loop of `parse_list`. -/
def parseListLoop : ℕ → List Token → ℕ → List Value → Except CqlError (List Value × ℕ)
  | 0, _, _, _ => .error fuelParseErr
  | fuel + 1, tokens, pos, acc =>
    if (currentTok tokens pos).tokenType.kindEq .comma then
      match parseValue tokens (pos + 1) with
      | .error e => .error e
      | .ok (v, p) => parseListLoop fuel tokens p (v :: acc)
    else .ok (acc.reverse, pos)

/-- `parse_list` (`parser.rs:653`). -/
def parseList (fuel : ℕ) (tokens : List Token) (pos : ℕ) : Except CqlError (Value × ℕ) :=
  if (currentTok tokens pos).tokenType.kindEq .lparen = false then
    .error ⟨.syntaxError, "Expected '(' after IN", some (currentTok tokens pos).position, none⟩
  else
    match parseValue tokens (pos + 1) with
    | .error e => .error e
    | .ok (v, p) =>
      match parseListLoop fuel tokens p [v] with
      | .error e => .error e
      | .ok (vals, p2) =>
        if (currentTok tokens p2).tokenType.kindEq .rparen then .ok (.list vals, p2 + 1)
        else .error ⟨.syntaxError, "Expected ')' after list values",
          some (currentTok tokens p2).position, none⟩

/-- `parse_comparison` (`parser.rs:549`). -/
def parseComparison (tokens : List Token) (pos : ℕ) : Except CqlError (Expression × ℕ) :=
  let fieldTok := currentTok tokens pos
  match fieldTok.tokenType with
  | .ident name =>
    let pos1 := pos + 1
    match FieldName.fromStr name with
    | none =>
      .error ⟨.unknownField,
        s!"Unknown field '{name}'. Valid fields: id, tag, title, label, user, service, host, trace_id, parent, root, created, depth, is_live",
        some fieldTok.position, some name⟩
    | some _ =>
      let opTok := currentTok tokens pos1
      match opOfToken opTok.tokenType with
      | none => .error ⟨.syntaxError, "Expected operator", some opTok.position, none⟩
      | some operator =>
        let pos2 := pos1 + 1
        match (if operator = .inOp then parseList (tokens.length + 1) tokens pos2
               else parseValue tokens pos2) with
        | .error e => .error e
        | .ok (value, pos3) => .ok (.comparison name operator value, pos3)
  | _ => .error ⟨.syntaxError, "Expected field name", some fieldTok.position, none⟩

/-- The mutually recursive productions of the recursive-descent parser,
defunctionalised over a production tag so that the whole parser is a
single structural recursion on fuel (`parse_or_expr` / `parse_and_expr`
and their `while` loops, `parse_unary_expr`, `parse_primary`). -/
inductive PMode
  | orE
  | orLoop (left : Expression)
  | andE
  | andLoop (left : Expression)
  | unary
  | primary

/-- One fuel tick per production call; the fuel supplied by `parse` is
generous enough that the fuel error is unreachable for the inputs
considered in the theorems below (which condition on the parser's
result). -/
def parseStep : ℕ → PMode → List Token → ℕ → Except CqlError (Expression × ℕ)
  | 0, _, _, _ => .error fuelParseErr
  | fuel + 1, mode, tokens, pos =>
    match mode with
    | .orE =>
      match parseStep fuel .andE tokens pos with
      | .error e => .error e
      | .ok (left, p) => parseStep fuel (.orLoop left) tokens p
    | .orLoop left =>
      if (currentTok tokens pos).tokenType.kindEq .or then
        match parseStep fuel .andE tokens (pos + 1) with
        | .error e => .error e
        | .ok (right, p) => parseStep fuel (.orLoop (.or left right)) tokens p
      else .ok (left, pos)
    | .andE =>
      match parseStep fuel .unary tokens pos with
      | .error e => .error e
      | .ok (left, p) => parseStep fuel (.andLoop left) tokens p
    | .andLoop left =>
      if (currentTok tokens pos).tokenType.kindEq .and then
        match parseStep fuel .unary tokens (pos + 1) with
        | .error e => .error e
        | .ok (right, p) => parseStep fuel (.andLoop (.and left right)) tokens p
      else .ok (left, pos)
    | .unary =>
      if (currentTok tokens pos).tokenType.kindEq .not then
        match parseStep fuel .primary tokens (pos + 1) with
        | .error e => .error e
        | .ok (inner, p) => .ok (.not inner, p)
      else parseStep fuel .primary tokens pos
    | .primary =>
      if (currentTok tokens pos).tokenType.kindEq .lparen then
        match parseStep fuel .orE tokens (pos + 1) with
        | .error e => .error e
        | .ok (e, p) =>
          if (currentTok tokens p).tokenType.kindEq .rparen then .ok (e, p + 1)
          else .error ⟨.syntaxError, "Expected ')' after expression",
            some (currentTok tokens p).position, none⟩
      else parseComparison tokens pos

/-- `parse_or_expr`. -/
def parseOrExpr (fuel : ℕ) (tokens : List Token) (pos : ℕ) :
    Except CqlError (Expression × ℕ) :=
  parseStep fuel .orE tokens pos

/-- `Parser::parse` (`parser.rs:462`) composed with `cql::parse`: tokenize,
reject an immediately-EOF (empty) token stream with "Empty query", parse an
or-expression, and reject any trailing non-EOF token with "Unexpected token
after expression". -/
def parse (input : Str) : Except CqlError CqlQuery :=
  match tokenize input with
  | .error e => .error e
  | .ok tokens =>
    if (currentTok tokens 0).tokenType.kindEq .eof then
      .error ⟨.syntaxError, "Empty query", some (currentTok tokens 0).position, none⟩
    else
      match parseOrExpr (10 * (tokens.length + 1)) tokens 0 with
      | .error e => .error e
      | .ok (ast, pos) =>
        if (currentTok tokens pos).tokenType.kindEq .eof = false then
          .error ⟨.syntaxError, "Unexpected token after expression",
            some (currentTok tokens pos).position, none⟩
        else .ok ⟨input, ast⟩

/-! ## Concrete fixtures used by witnesses and counterexamples -/

/-- A concrete environment: a fixed clock, no absolute-date parses, ASCII
lowercasing. -/
def envAscii : Env := ⟨1760000000000, fun _ => none, fun _ => none, asciiLowerStr⟩

/-- An environment whose `chrono` parsers recognise one RFC 3339 string and
one `YYYY-MM-DD` string (2024-01-15 is epoch day 19737). -/
def envAbs : Env :=
  { envAscii with
    rfc3339 := fun s => if s = "2024-01-15T00:00:00Z".data then some 1705276800000 else none
    ymdDays := fun s => if s = "2024-01-15".data then some 19737 else none }

/-- An index holding one context (id 1) whose host is `"Foo"`. -/
def idxHostFoo : SecondaryIndexes :=
  { SecondaryIndexes.empty with
    host_exact := fun s => if s = "Foo".data then {1} else ∅
    host_sorted := [("Foo".data, 1)]
    all_context_ids := {1} }

/-- An index holding two contexts tagged `"amp"` (id 1) and `"amplifier"`
(id 2); the lowercased tag index coincides since both tags are already
lowercase. -/
def idxTag : SecondaryIndexes :=
  { SecondaryIndexes.empty with
    tag_exact := fun s =>
      if s = "amp".data then {1} else if s = "amplifier".data then {2} else ∅
    tag_sorted := [("amp".data, 1), ("amplifier".data, 2)]
    tag_lower_exact := fun s =>
      if s = "amp".data then {1} else if s = "amplifier".data then {2} else ∅
    tag_lower_sorted := [("amp".data, 1), ("amplifier".data, 2)]
    all_context_ids := {1, 2} }

/-- The AST of a successful parse (projection used to state end-to-end
facts without needing decidable equality on `CqlQuery`). -/
def astOf : Except CqlError CqlQuery → Option Expression
  | .ok q => some q.ast
  | .error _ => none

/-- The token stream of `tag = "x" )` — a complete comparison followed by a
stray `)` — as produced by `tokenize`. -/
def toksTrailing : List Token :=
  [⟨.ident "tag", ⟨1, 1, 0⟩⟩, ⟨.eq, ⟨1, 5, 4⟩⟩, ⟨.string "x".data, ⟨1, 7, 6⟩⟩,
    ⟨.rparen, ⟨1, 11, 10⟩⟩, ⟨.eof, ⟨1, 12, 11⟩⟩]

/-! ## Theorems -/

/-- Claim C1 (amended): for every pair of CQL expressions, index state and
live-context set, whenever the sub-evaluations succeed `execute` satisfies
`execute(A AND B) = execute(A) ∩ execute(B)`,
`execute(A OR B) = execute(A) ∪ execute(B)` and
`execute(NOT A) = universe \ execute(A)`; consequently
`execute(NOT (NOT A)) = universe ∩ execute(A)`, which equals `execute(A)`
whenever `execute(A)` is contained in the indexed universe (the `is_live`
comparison can return live contexts outside it, so plain
`execute(NOT (NOT A)) = execute(A)` does not hold unconditionally). -/
theorem c1_boolean_algebra_amended (env : Env) (idx : SecondaryIndexes) (live : Finset ℕ)
    (A B : Expression) (sa sb : Finset ℕ)
    (ha : execute env idx live A = .ok sa) (hb : execute env idx live B = .ok sb) :
    execute env idx live (.and A B) = .ok (sa ∩ sb) ∧
    execute env idx live (.or A B) = .ok (sa ∪ sb) ∧
    execute env idx live (.not A) = .ok (idx.all_contexts \ sa) ∧
    execute env idx live (.not (.not A)) = .ok (idx.all_contexts ∩ sa) := by
  refine ⟨?_, ?_, ?_, ?_⟩ <;>
    simp [execute, ha, hb, sdiff_sdiff_right_self, Finset.inf_eq_inter]

theorem c1_boolean_algebra_witness :
    execute envAscii idxTag ∅
        (.and (.comparison "tag" .eq (.string "amp".data))
          (.comparison "tag" .eq (.string "amplifier".data))) =
      .ok (({1} : Finset ℕ) ∩ {2}) ∧
    execute envAscii idxTag ∅
        (.or (.comparison "tag" .eq (.string "amp".data))
          (.comparison "tag" .eq (.string "amplifier".data))) =
      .ok (({1} : Finset ℕ) ∪ {2}) ∧
    execute envAscii idxTag ∅ (.not (.comparison "tag" .eq (.string "amp".data))) =
      .ok (idxTag.all_contexts \ {1}) ∧
    execute envAscii idxTag ∅ (.not (.not (.comparison "tag" .eq (.string "amp".data)))) =
      .ok (idxTag.all_contexts ∩ {1}) :=
  c1_boolean_algebra_amended envAscii idxTag ∅
    (.comparison "tag" .eq (.string "amp".data))
    (.comparison "tag" .eq (.string "amplifier".data))
    {1} {2} (by decide) (by decide)

/-- Counterexample to claim C1 as stated: with an empty index (universe
`∅`) and live-context set `{5}`, the query `is_live = "true"` evaluates to
`{5}`, but `NOT (NOT (is_live = "true"))` evaluates to `∅ ≠ {5}` — so
`execute(NOT (NOT A)) = execute(A)` fails when the live set is not
contained in the indexed universe. -/
theorem c1_notnot_counterexample :
    execute envAscii SecondaryIndexes.empty {5}
        (.not (.not (.comparison "is_live" .eq (.string "true".data)))) =
      .ok (∅ : Finset ℕ) ∧
    execute envAscii SecondaryIndexes.empty {5}
        (.comparison "is_live" .eq (.string "true".data)) =
      .ok ({5} : Finset ℕ) ∧
    (∅ : Finset ℕ) ≠ {5} := ⟨by decide, by decide, by decide⟩

/-- Claim C9: for the `host` field the case-insensitive operators silently
degrade to the case-sensitive ones — for every environment, index state,
live set and string `s`, `host ~= s` executes exactly as `host = s` and
`host ^~= s` exactly as `host ^= s` (both consult the case-sensitive host
index; there is no lowercased host index). -/
theorem c9_host_ci_degrades (env : Env) (idx : SecondaryIndexes) (live : Finset ℕ) (s : Str) :
    execute env idx live (.comparison "host" .eqCi (.string s)) =
      execute env idx live (.comparison "host" .eq (.string s)) ∧
    execute env idx live (.comparison "host" .startsCi (.string s)) =
      execute env idx live (.comparison "host" .starts (.string s)) := ⟨rfl, rfl⟩

/-- Claim C7 (code bug): the query `created > "-999999999999999999d"`
parses successfully into a relative-date comparison (the string matches
`^-(\d+)([hdm])$`), but executing it panics for every environment, index
state and live set: `999999999999999999 * 86_400_000` overflows `u64`
(debug builds panic on the unchecked multiplication in
`parse_relative_date`; release builds wrap to a meaningless timestamp) —
contradicting the spec's policy that parse/execute never panic on user
input. -/
theorem c7_relative_date_overflow_panics (env : Env) (idx : SecondaryIndexes)
    (live : Finset ℕ) :
    astOf (parse "created > \"-999999999999999999d\"".data) =
      some (.comparison "created" .gt (.date "-999999999999999999d".data true)) ∧
    execute env idx live
        (.comparison "created" .gt (.date "-999999999999999999d".data true)) =
      .panic "attempt to multiply with overflow" ∧
    matchRelDate "-999999999999999999d".data = some ("999999999999999999".data, 'd') :=
  ⟨rfl, rfl, rfl⟩

/-- Claim C5 (amended): for every field other than `created` and `depth`, a
comparison with a range operator `<`, `<=`, `>`, `>=` always fails without
consulting the index or live-set state; the error is `InvalidOperator`,
except that `is_live` inspects its value before its operator, so a range
comparison on `is_live` with a non-string value fails with `InvalidValue`
instead. -/
theorem c5_range_ops_rejected (env : Env) (idx : SecondaryIndexes) (live : Finset ℕ)
    (fn : FieldName) (op : Operator) (v : Value)
    (h1 : fn ≠ .created) (h2 : fn ≠ .depth)
    (hop : op = .gt ∨ op = .gte ∨ op = .lt ∨ op = .lte) :
    (execute_field env idx live fn op v).errTypeOf =
      some (if fn = .isLive ∧ v.isStringLit = false then .invalidValue
            else .invalidOperator) ∧
    execute_field env idx live fn op v =
      execute_field envAscii SecondaryIndexes.empty ∅ fn op v := by
  rcases hop with rfl | rfl | rfl | rfl <;> cases fn <;>
    first
      | exact absurd rfl h1
      | exact absurd rfl h2
      | exact ⟨rfl, rfl⟩
      | (cases v <;> exact ⟨rfl, rfl⟩)

theorem c5_witness :
    (execute_field envAscii SecondaryIndexes.empty ∅ .tag .lt (.string [])).errTypeOf =
      some (if FieldName.tag = .isLive ∧ (Value.string []).isStringLit = false
            then CqlErrorType.invalidValue else .invalidOperator) ∧
    execute_field envAscii SecondaryIndexes.empty ∅ .tag .lt (.string []) =
      execute_field envAscii SecondaryIndexes.empty ∅ .tag .lt (.string []) :=
  c5_range_ops_rejected envAscii SecondaryIndexes.empty ∅ .tag .lt (.string [])
    (by decide) (by decide) (Or.inr (Or.inr (Or.inl rfl)))

/-- Counterexample to claim C5 as stated: `is_live < 5` fails with
`InvalidValue` (the value is inspected before the operator), not with the
`InvalidOperator` the claim promises for every non-`created`/`depth`
field. -/
theorem c5_counterexample :
    execute envAscii SecondaryIndexes.empty ∅ (.comparison "is_live" .lt (.number 5)) =
      .err ⟨.invalidValue, "Expected boolean value for is_live", none, none⟩ ∧
    CqlErrorType.invalidValue ≠ .invalidOperator := ⟨rfl, by decide⟩

/-! ### Correctness of `prefix_search` on sorted vectors (claim C2) -/

/-- If `p` is a prefix of `s`, then `s` is not lexicographically below `p`. -/
theorem strLtB_false_of_isPrefixOf : ∀ (p s : Str), p.isPrefixOf s = true → strLtB s p = false := by
  intro p
  induction p with
  | nil => intro s _; cases s <;> rfl
  | cons a p' ih =>
    intro s h
    cases s with
    | nil => simp [List.isPrefixOf] at h
    | cons b s' =>
      simp only [List.isPrefixOf, Bool.and_eq_true, beq_iff_eq] at h
      obtain ⟨rfl, hp⟩ := h
      have hlt : ¬ a < a := lt_irrefl a
      show (if a < a then true else if a < a then false else strLtB s' p') = false
      rw [if_neg hlt, if_neg hlt]
      exact ih s' hp

/-- Transitivity of "not lexicographically below": if `p ≤ x` and `x ≤ y`
then `p ≤ y` (stated on the boolean comparison). -/
theorem strLtB_false_trans :
    ∀ (p x y : Str), strLtB x p = false → strLtB y x = false → strLtB y p = false := by
  intro p
  induction p with
  | nil => intro x y _ _; cases y <;> rfl
  | cons a p' ih =>
    intro x y h1 h2
    cases x with
    | nil => simp [strLtB] at h1
    | cons d x' =>
      cases y with
      | nil => simp [strLtB] at h2
      | cons c y' =>
        have h1' : (if d < a then true else if a < d then false else strLtB x' p') = false := h1
        have h2' : (if c < d then true else if d < c then false else strLtB y' x') = false := h2
        have hda : ¬ d < a := by intro h; rw [if_pos h] at h1'; simp at h1'
        have hcd : ¬ c < d := by intro h; rw [if_pos h] at h2'; simp at h2'
        have hac : a ≤ c := le_trans (le_of_not_lt hda) (le_of_not_lt hcd)
        show (if c < a then true else if a < c then false else strLtB y' p') = false
        rw [if_neg (not_lt_of_ge hac)]
        by_cases haclt : a < c
        · rw [if_pos haclt]
        · rw [if_neg haclt]
          have hca : c = a := le_antisymm (le_of_not_lt haclt) hac
          subst hca
          have hdc : d = c := le_antisymm (le_of_not_lt hcd) (le_of_not_lt hda)
          subst hdc
          rw [if_neg hda, if_neg hda] at h1' h2'
          exact ih x' y' h1' h2'

/-- Between two strings that both dominate `p`, prefix-of-`p` transfers
downward: if `p ≤ x ≤ y` and `p` is a prefix of `y`, it is a prefix of
`x`. -/
theorem prefix_of_between :
    ∀ (p x y : Str), strLtB x p = false → strLtB y x = false →
      p.isPrefixOf y = true → p.isPrefixOf x = true := by
  intro p
  induction p with
  | nil => intro x y _ _ _; cases x <;> rfl
  | cons a p' ih =>
    intro x y h1 h2 h3
    cases y with
    | nil => simp [List.isPrefixOf] at h3
    | cons c y' =>
      simp only [List.isPrefixOf, Bool.and_eq_true, beq_iff_eq] at h3
      obtain ⟨rfl, hp⟩ := h3
      cases x with
      | nil => simp [strLtB] at h1
      | cons d x' =>
        have h1' : (if d < a then true else if a < d then false else strLtB x' p') = false := h1
        have h2' : (if a < d then true else if d < a then false else strLtB y' x') = false := h2
        have hda : ¬ d < a := by intro h; rw [if_pos h] at h1'; simp at h1'
        have had : ¬ a < d := by intro h; rw [if_pos h] at h2'; simp at h2'
        have hd : d = a := le_antisymm (le_of_not_lt had) (le_of_not_lt hda)
        subst hd
        rw [if_neg hda, if_neg hda] at h1' h2'
        have := ih x' y' h1' h2' hp
        simp [List.isPrefixOf, this]

/-- Every element surviving `dropWhile (· < p)` on a sorted vector
dominates `p`. -/
theorem dropWhile_bound (p : Str) :
    ∀ (v : List (Str × ℕ)), v.Pairwise (fun a b => strLtB b.1 a.1 = false) →
      ∀ e ∈ v.dropWhile (fun e => strLtB e.1 p), strLtB e.1 p = false := by
  intro v
  induction v with
  | nil => intro _ e he; simp [List.dropWhile] at he
  | cons a v' ih =>
    intro hs e he
    rw [List.pairwise_cons] at hs
    obtain ⟨ha, hs'⟩ := hs
    rw [List.dropWhile_cons] at he
    by_cases hq : strLtB a.1 p = true
    · rw [if_pos hq] at he
      exact ih hs' e he
    · have hq' : strLtB a.1 p = false := by revert hq; cases strLtB a.1 p <;> simp
      rw [if_neg (by rw [hq']; simp)] at he
      rcases List.mem_cons.mp he with rfl | hmem
      · exact hq'
      · exact strLtB_false_trans p a.1 e.1 hq' (ha e hmem)

/-- On a sorted vector all of whose elements dominate `p`, the emit loop
(`takeWhile`, stopping at the first prefix mismatch) collects exactly the
elements whose string starts with `p`. -/
theorem takeWhile_prefix_eq_filter (p : Str) :
    ∀ (w : List (Str × ℕ)), w.Pairwise (fun a b => strLtB b.1 a.1 = false) →
      (∀ e ∈ w, strLtB e.1 p = false) →
      w.takeWhile (fun e => p.isPrefixOf e.1) = w.filter (fun e => p.isPrefixOf e.1) := by
  intro w
  induction w with
  | nil => intro _ _; rfl
  | cons a w' ih =>
    intro hs hall
    rw [List.pairwise_cons] at hs
    obtain ⟨ha, hs'⟩ := hs
    rw [List.takeWhile_cons, List.filter_cons]
    by_cases hr : p.isPrefixOf a.1 = true
    · rw [if_pos hr, if_pos hr]
      exact congrArg (List.cons a) (ih hs' (fun e he => hall e (List.mem_cons_of_mem _ he)))
    · have hr' : p.isPrefixOf a.1 = false := by revert hr; cases List.isPrefixOf p a.1 <;> simp
      rw [if_neg (by rw [hr']; simp), if_neg (by rw [hr']; simp)]
      symm
      rw [List.filter_eq_nil_iff]
      intro e he hre
      exact hr (prefix_of_between p a.1 e.1 (hall a (List.mem_cons_self a w')) (ha e he) hre)

/-- Dropping the `takeWhile` run is dropping-while. -/
theorem drop_length_takeWhile {α : Type} (q : α → Bool) (l : List α) :
    l.drop (l.takeWhile q).length = l.dropWhile q := by
  induction l with
  | nil => rfl
  | cons a l ih =>
    rw [List.takeWhile_cons, List.dropWhile_cons]
    by_cases h : q a
    · rw [if_pos h, if_pos h, List.length_cons, List.drop_succ_cons]
      exact ih
    · rw [if_neg h, if_neg h, List.length_nil, List.drop_zero]

/-- The elements skipped by the binary search (those `< p`) never start
with `p`, so filtering for the prefix after the drop loses nothing. -/
theorem filter_prefix_dropWhile (p : Str) (v : List (Str × ℕ)) :
    (v.dropWhile (fun e => strLtB e.1 p)).filter (fun e => p.isPrefixOf e.1) =
      v.filter (fun e => p.isPrefixOf e.1) := by
  conv_rhs =>
    rw [← List.takeWhile_append_dropWhile (p := fun e => strLtB e.1 p) (l := v)]
  rw [List.filter_append]
  have h : (v.takeWhile (fun e => strLtB e.1 p)).filter (fun e => p.isPrefixOf e.1) = [] := by
    rw [List.filter_eq_nil_iff]
    intro e he hre
    have hq := List.mem_takeWhile_imp he
    rw [strLtB_false_of_isPrefixOf p e.1 hre] at hq
    simp at hq
  rw [h, List.nil_append]

/-- `prefix_search` on a sorted vector returns exactly the ids of entries
whose string starts with the query. -/
theorem prefix_search_eq_spec (v : List (Str × ℕ)) (p : Str) (hs : sortedByStr v) :
    SecondaryIndexes.prefix_search v p = specPrefixSet v p := by
  unfold SecondaryIndexes.prefix_search SecondaryIndexes.partitionPointLt specPrefixSet
  by_cases hv : v = []
  · subst hv; simp
  · rw [if_neg hv, drop_length_takeWhile,
      takeWhile_prefix_eq_filter p _ (hs.sublist (List.dropWhile_sublist _))
        (dropWhile_bound p v hs),
      filter_prefix_dropWhile]

/-- Pushing the lowercasing map through filter-then-project. -/
theorem map_snd_filter_map (low : Str → Str) (p : Str) :
    ∀ (cs : List (Str × ℕ)),
      (((cs.map fun e => (low e.1, e.2)).filter
          (fun e => (low p).isPrefixOf e.1)).map Prod.snd) =
        ((cs.filter (fun e => (low p).isPrefixOf (low e.1))).map Prod.snd) := by
  intro cs
  induction cs with
  | nil => rfl
  | cons a l ih =>
    rw [List.map_cons, List.filter_cons, List.filter_cons]
    by_cases h : (low p).isPrefixOf (low a.1) = true
    · simp only [h, if_pos, List.map_cons]
      rw [ih]
    · simp only [h]
      simpa using ih

/-- `prefix_search` on the lowercased vector with a lowercased query
returns exactly the ids of base entries whose lowercased value starts with
the lowercased query, given that the lowercased vector is sorted and is a
permutation of the lowercased base entries. -/
theorem prefix_search_ci_eq_spec (low : Str → Str) (cs ci : List (Str × ℕ)) (p : Str)
    (hci : sortedByStr ci)
    (hperm : List.Perm ci (cs.map fun e => (low e.1, e.2))) :
    SecondaryIndexes.prefix_search ci (low p) = specPrefixSetCi low cs p := by
  rw [prefix_search_eq_spec ci (low p) hci]
  unfold specPrefixSet specPrefixSetCi
  have h1 := (hperm.filter (fun e => (low p).isPrefixOf e.1)).map Prod.snd
  rw [List.toFinset_eq_of_perm _ _ h1, map_snd_filter_map]

/-- Claim C2 (amended): for every string field, environment, index state
whose sorted vectors are sorted, and query `p`: `field ^= p` returns
exactly the indexed entries whose value starts with `p` (byte-wise); for
`tag`, `title`, `user`, `service` — whose lowercased vector mirrors the
base entries — `field ^~= p` returns exactly the entries whose lowercased
value starts with the lowercased `p`; for `host` there is no lowercased
index and `host ^~= p` executes exactly as the case-sensitive
`host ^= p`. -/
theorem c2_prefix_law (env : Env) (idx : SecondaryIndexes) (live : Finset ℕ)
    (f : StringField) (p : Str)
    (hcs : sortedByStr (csVecOf idx f)) (hci : sortedByStr (ciVecOf idx f))
    (hperm : f ≠ .host →
      List.Perm (ciVecOf idx f) ((csVecOf idx f).map fun e => (env.low e.1, e.2))) :
    execute env idx live (.comparison f.fieldStr .starts (.string p)) =
      .ok (specPrefixSet (csVecOf idx f) p) ∧
    (f ≠ .host →
      execute env idx live (.comparison f.fieldStr .startsCi (.string p)) =
        .ok (specPrefixSetCi env.low (csVecOf idx f) p)) ∧
    (f = .host →
      execute env idx live (.comparison f.fieldStr .startsCi (.string p)) =
        execute env idx live (.comparison f.fieldStr .starts (.string p))) := by
  cases f <;>
    refine ⟨congrArg Outcome.ok (prefix_search_eq_spec _ p hcs), ?_, ?_⟩
  case tag.refine_1 =>
    exact fun h =>
      congrArg Outcome.ok (prefix_search_ci_eq_spec env.low _ _ p hci (hperm h))
  case tag.refine_2 => exact fun h => by cases h
  case title.refine_1 =>
    exact fun h =>
      congrArg Outcome.ok (prefix_search_ci_eq_spec env.low _ _ p hci (hperm h))
  case title.refine_2 => exact fun h => by cases h
  case user.refine_1 =>
    exact fun h =>
      congrArg Outcome.ok (prefix_search_ci_eq_spec env.low _ _ p hci (hperm h))
  case user.refine_2 => exact fun h => by cases h
  case service.refine_1 =>
    exact fun h =>
      congrArg Outcome.ok (prefix_search_ci_eq_spec env.low _ _ p hci (hperm h))
  case service.refine_2 => exact fun h => by cases h
  case host.refine_1 => exact fun h => absurd rfl h
  case host.refine_2 => exact fun _ => rfl

theorem c2_prefix_law_witness :
    execute envAscii idxTag ∅
        (.comparison (StringField.tag).fieldStr .starts (.string "am".data)) =
      .ok (specPrefixSet (csVecOf idxTag .tag) "am".data) ∧
    (StringField.tag ≠ .host →
      execute envAscii idxTag ∅
          (.comparison (StringField.tag).fieldStr .startsCi (.string "am".data)) =
        .ok (specPrefixSetCi envAscii.low (csVecOf idxTag .tag) "am".data)) ∧
    (StringField.tag = .host →
      execute envAscii idxTag ∅
          (.comparison (StringField.tag).fieldStr .startsCi (.string "am".data)) =
        execute envAscii idxTag ∅
          (.comparison (StringField.tag).fieldStr .starts (.string "am".data))) :=
  c2_prefix_law envAscii idxTag ∅ .tag "am".data (by decide) (by decide)
    (fun _ => List.Perm.refl _)

/-- Counterexample to claim C2 as stated: with one context whose host is
`"Foo"`, the claim predicts `host ^~= "FO"` returns `{1}` (lowercased
`"foo"` starts with lowercased `"fo"`), but the executor consults the
case-sensitive host vector and returns `∅`. -/
theorem c2_host_ci_counterexample :
    execute envAscii idxHostFoo ∅ (.comparison "host" .startsCi (.string "FO".data)) =
      .ok (∅ : Finset ℕ) ∧
    specPrefixSetCi asciiLowerStr [("Foo".data, 1)] "FO".data = {1} ∧
    (∅ : Finset ℕ) ≠ {1} := ⟨by decide, by decide, by decide⟩

/-- Claim C6 (amended): (1) a string literal matching `^-(\d+)([hdm])$` is
parsed into a relative `Date` value, any other string literal into a plain
`String`; (2) evaluating a relative date as a `created` bound yields
`now − N·unit` milliseconds, *provided* the product fits in `u64` and does
not exceed `now` (otherwise the unchecked `u64` arithmetic
overflows/underflows instead of producing a timestamp); (3) a
non-relative `Date` is evaluated as an absolute date; absolute strings are
interpreted first as RFC 3339 and, failing that, as `YYYY-MM-DD` at
midnight UTC (the parsed day count times 86 400 000 ms). -/
theorem c6_date_semantics :
    (∀ (tokens : List Token) (pos : ℕ) (s : Str),
      (currentTok tokens pos).tokenType = .string s →
      parseValue tokens pos =
        .ok (if (matchRelDate s).isSome then Value.date s true else Value.string s,
          pos + 1)) ∧
    (∀ (env : Env) (s ds : Str) (u : Char) (m : ℕ),
      matchRelDate s = some (ds, u) → unitFactor u = some m →
      digitsToNat ds * m < 2 ^ 64 → digitsToNat ds * m ≤ env.now →
      parse_date_value env (.date s true) = .ok (env.now - digitsToNat ds * m)) ∧
    (∀ (env : Env) (s : Str),
      parse_date_value env (.date s false) = parse_absolute_date env s) ∧
    (∀ (env : Env) (s : Str) (ms : ℤ), env.rfc3339 s = some ms →
      parse_absolute_date env s = .ok (i64AsU64 ms)) ∧
    (∀ (env : Env) (s : Str) (d : ℤ), env.rfc3339 s = none → env.ymdDays s = some d →
      parse_absolute_date env s = .ok (i64AsU64 (d * 86400000))) := by
  refine ⟨?_, ?_, fun env s => rfl, ?_, ?_⟩
  · intro tokens pos s h
    simp [parseValue, h]
  · intro env s ds u m hm hu hlt hle
    have hm0 : 0 < m := by
      unfold unitFactor at hu
      split at hu
      · injection hu with h; omega
      · injection hu with h; omega
      · injection hu with h; omega
      · exact Option.noConfusion hu
    have hamt : digitsToNat ds < 2 ^ 64 :=
      lt_of_le_of_lt (Nat.le_mul_of_pos_right _ hm0) hlt
    have h64 : (2 : ℕ) ^ 64 = 18446744073709551616 := by norm_num
    have hA : ¬ ((18446744073709551616 : ℕ) ≤ digitsToNat ds) := by
      rw [← h64]; exact not_le.mpr hamt
    have hB : ¬ ((18446744073709551616 : ℕ) ≤ digitsToNat ds * m) := by
      rw [← h64]; exact not_le.mpr hlt
    simp [parse_date_value, parse_relative_date, hm, hu, hA, hB, not_lt.mpr hle]
  · intro env s ms h
    simp [parse_absolute_date, h]
  · intro env s d h1 h2
    simp [parse_absolute_date, h1, h2]

theorem c6_witness :
    parseValue [⟨.string "-24h".data, ⟨1, 1, 0⟩⟩] 0 =
      .ok (if (matchRelDate "-24h".data).isSome then Value.date "-24h".data true
           else Value.string "-24h".data, 1) ∧
    parse_date_value envAscii (.date "-24h".data true) =
      .ok (envAscii.now - digitsToNat "24".data * 3600000) ∧
    parse_absolute_date envAbs "2024-01-15T00:00:00Z".data = .ok (i64AsU64 1705276800000) ∧
    parse_absolute_date envAbs "2024-01-15".data = .ok (i64AsU64 (19737 * 86400000)) :=
  ⟨c6_date_semantics.1 _ 0 _ rfl,
   c6_date_semantics.2.1 envAscii _ _ 'h' 3600000 rfl rfl (by decide) (by decide),
   c6_date_semantics.2.2.2.1 envAbs _ 1705276800000 rfl,
   c6_date_semantics.2.2.2.2 envAbs _ 19737 rfl rfl⟩

/-- Counterexample to claim C6 as stated: `"-999999d"` matches the
relative-date pattern, but evaluating it as a `created` bound does not
yield `now − 999999` days in milliseconds — `999999 · 86 400 000 ms`
exceeds `now`, so the unchecked `u64` subtraction underflows (debug panic;
meaningless wrapped value in release) instead of producing the claimed
timestamp. -/
theorem c6_underflow_counterexample :
    matchRelDate "-999999d".data = some ("999999".data, 'd') ∧
    parse_date_value envAscii (.date "-999999d".data true) =
      .panic "attempt to subtract with overflow" := ⟨rfl, rfl⟩

/-! ### C10: rejection of empty and trailing-token inputs -/

/-- Whitespace-only input is consumed entirely by `skip_whitespace`. -/
theorem skipWs_all_ws :
    ∀ (input : Str) (l co o : ℕ), (∀ c ∈ input, rustIsWhitespace c = true) →
      (skipWs input l co o).rest = [] := by
  intro input
  induction input with
  | nil => intro l co o _; rfl
  | cons c cs ih =>
    intro l co o h
    rw [skipWs, if_pos (h c (List.mem_cons_self c cs))]
    exact ih _ _ _ (fun x hx => h x (List.mem_cons_of_mem _ hx))

/-- Claim C10: `parse` rejects an empty or whitespace-only input with a
`SyntaxError` whose message is "Empty query", and rejects any input whose
token stream continues past a completely parsed or-expression with a
`SyntaxError` "Unexpected token after expression"; it never returns `Ok`
in either case. -/
theorem c10_reject_empty_and_trailing :
    (∀ (input : Str), (∀ c ∈ input, rustIsWhitespace c = true) →
      parse input =
        .error ⟨.syntaxError, "Empty query", some (skipWs input 1 1 0).pos, none⟩) ∧
    (∀ (input : Str) (tokens : List Token) (ast : Expression) (p : ℕ),
      tokenize input = .ok tokens →
      (currentTok tokens 0).tokenType.kindEq .eof = false →
      parseOrExpr (10 * (tokens.length + 1)) tokens 0 = .ok (ast, p) →
      (currentTok tokens p).tokenType.kindEq .eof = false →
      parse input =
        .error ⟨.syntaxError, "Unexpected token after expression",
          some (currentTok tokens p).position, none⟩) := by
  constructor
  · intro input h
    have hws := skipWs_all_ws input 1 1 0 h
    cases hsk : skipWs input 1 1 0 with
    | mk rest l co o =>
      rw [hsk] at hws
      subst hws
      have hnt : next_token ⟨input, 1, 1, 0⟩ = .ok (⟨.eof, ⟨l, co, o⟩⟩, ⟨[], l, co, o⟩) := by
        simp only [next_token, hsk]
      have htok : tokenize input = .ok [⟨.eof, ⟨l, co, o⟩⟩] := by
        unfold tokenize
        show tokenizeGo (input.length + 1 + 1) ⟨input, 1, 1, 0⟩ [] = _
        simp only [tokenizeGo]
        rw [hnt]
        rfl
      unfold parse
      rw [htok]
      rfl
  · intro input tokens ast p h1 h0 hp hlast
    unfold parse
    rw [h1]
    simp only [h0, Bool.false_eq_true, if_false]
    rw [hp]
    simp [hlast]

theorem c10_witness :
    parse "  ".data =
      .error ⟨.syntaxError, "Empty query", some (skipWs "  ".data 1 1 0).pos, none⟩ ∧
    parse "tag = \"x\" )".data =
      .error ⟨.syntaxError, "Unexpected token after expression",
        some (currentTok toksTrailing 3).position, none⟩ :=
  ⟨c10_reject_empty_and_trailing.1 "  ".data (by decide),
   c10_reject_empty_and_trailing.2 "tag = \"x\" )".data toksTrailing
     (.comparison "tag" .eq (.string "x".data)) 3 rfl rfl rfl rfl⟩

/-! ### C3/C4: binary frame codec -/

theorem encodeLE_length : ∀ (w n : ℕ), (Protocol.encodeLE w n).length = w := by
  intro w
  induction w with
  | zero => intro n; rfl
  | succ w ih => intro n; simp [Protocol.encodeLE, ih]

theorem leVal_encodeLE : ∀ (w n : ℕ), n < 256 ^ w →
    Protocol.leVal (Protocol.encodeLE w n) = n := by
  intro w
  induction w with
  | zero =>
    intro n h
    interval_cases n
    rfl
  | succ w ih =>
    intro n h
    have hdiv : n / 256 < 256 ^ w := by
      rw [Nat.div_lt_iff_lt_mul (by norm_num : 0 < 256)]
      calc n < 256 ^ (w + 1) := h
        _ = 256 ^ w * 256 := by ring
    show n % 256 + 256 * Protocol.leVal (Protocol.encodeLE w (n / 256)) = n
    rw [ih _ hdiv, Nat.mod_add_div]

theorem readLE_encodeLE (w n : ℕ) (rest : List ℕ) (h : n < 256 ^ w) :
    Protocol.readLE w (Protocol.encodeLE w n ++ rest) = some (n, rest) := by
  unfold Protocol.readLE Protocol.readBytes
  rw [List.length_append, encodeLE_length,
    if_neg (by omega), List.take_left' (encodeLE_length w n),
    List.drop_left' (encodeLE_length w n)]
  simp [leVal_encodeLE w n h]

/-- Claim C3: `read_frame` rejects any frame whose declared payload length
exceeds 64 MiB (67_108_864) with `InvalidInput` immediately after reading
the length — for every suffix of the stream, so before reading header or
payload bytes; a declared length of exactly 64 MiB passes the size check
and proceeds to the body reads; and a frame whose header reads fine but
whose stream holds fewer payload bytes than declared fails with `Io`. -/
theorem c3_frame_size_limit :
    (∀ (input rest : List ℕ) (len : ℕ),
      Protocol.readU32 input = some (len, rest) → len > 67108864 →
      Protocol.read_frame input = .error (Protocol.frameSizeErr len)) ∧
    (∀ (input rest : List ℕ),
      Protocol.readU32 input = some (67108864, rest) →
      Protocol.read_frame input = Protocol.read_frame_body 67108864 rest) ∧
    (∀ (input rest r1 r2 r3 : List ℕ) (len mt fl rq : ℕ),
      Protocol.readU32 input = some (len, rest) → len ≤ 67108864 →
      Protocol.readU16 rest = some (mt, r1) →
      Protocol.readU16 r1 = some (fl, r2) →
      Protocol.readU64 r2 = some (rq, r3) →
      r3.length < len →
      Protocol.read_frame input = .error Protocol.eofErr) := by
  refine ⟨?_, ?_, ?_⟩
  · intro input rest len h hlen
    have hgt : len > Protocol.MAX_FRAME_SIZE := by
      unfold Protocol.MAX_FRAME_SIZE; omega
    simp only [Protocol.read_frame, h]
    rw [if_pos hgt]
  · intro input rest h
    have hgt : ¬ (67108864 > Protocol.MAX_FRAME_SIZE) := by
      unfold Protocol.MAX_FRAME_SIZE; omega
    simp only [Protocol.read_frame, h]
    rw [if_neg hgt]
  · intro input rest r1 r2 r3 len mt fl rq h hlen h16a h16b h64 hshort
    have hgt : ¬ (len > Protocol.MAX_FRAME_SIZE) := by
      unfold Protocol.MAX_FRAME_SIZE; omega
    have hbytes : Protocol.readBytes len r3 = none := by
      unfold Protocol.readBytes
      rw [if_pos hshort]
    simp only [Protocol.read_frame, h, hgt, if_false,
      Protocol.read_frame_body, h16a, h16b, h64, hbytes]

theorem c3_witness :
    Protocol.read_frame [1, 0, 0, 4] = .error (Protocol.frameSizeErr 67108865) ∧
    Protocol.read_frame [0, 0, 0, 4] = Protocol.read_frame_body 67108864 [] ∧
    Protocol.read_frame [0, 0, 0, 4, 0, 0, 0, 0, 0, 0, 0, 0, 0, 0, 0, 0] =
      .error Protocol.eofErr :=
  ⟨c3_frame_size_limit.1 [1, 0, 0, 4] [] 67108865 (by decide) (by decide),
   c3_frame_size_limit.2.1 [0, 0, 0, 4] [] (by decide),
   c3_frame_size_limit.2.2 [0, 0, 0, 4, 0, 0, 0, 0, 0, 0, 0, 0, 0, 0, 0, 0]
     [0, 0, 0, 0, 0, 0, 0, 0, 0, 0, 0, 0] [0, 0, 0, 0, 0, 0, 0, 0, 0, 0]
     [0, 0, 0, 0, 0, 0, 0, 0] [] 67108864 0 0 0
     (by decide) (by decide) (by decide) (by decide) (by decide) (by decide)⟩

/-- Claim C4: for every `msg_type`, `flags`, `req_id` in range and payload
of at most 64 MiB, writing a frame and reading it back succeeds, returning
a header whose `len` equals the payload length and whose `msg_type`,
`flags`, `req_id` equal the written values, together with exactly the
written payload bytes and an exhausted stream. -/
theorem c4_frame_roundtrip (mt fl rq : ℕ) (payload : List ℕ)
    (hp : payload.length ≤ 67108864) (hmt : mt < 2 ^ 16) (hfl : fl < 2 ^ 16)
    (hrq : rq < 2 ^ 64) :
    Protocol.read_frame (Protocol.write_frame mt fl rq payload) =
      .ok ((⟨payload.length, mt, fl, rq⟩, payload), []) := by
  have h32 : payload.length < 256 ^ 4 := by norm_num; omega
  have h16a : mt < 256 ^ 2 := by norm_num at hmt ⊢; omega
  have h16b : fl < 256 ^ 2 := by norm_num at hfl ⊢; omega
  have h64 : rq < 256 ^ 8 := by norm_num at hrq ⊢; omega
  have hgt : ¬ (payload.length > Protocol.MAX_FRAME_SIZE) := by
    unfold Protocol.MAX_FRAME_SIZE; omega
  have hbytes : Protocol.readBytes payload.length payload = some (payload, []) := by
    unfold Protocol.readBytes
    rw [if_neg (lt_irrefl payload.length), List.take_length, List.drop_length]
  have r0 := readLE_encodeLE 4 payload.length
    (Protocol.encodeLE 2 mt ++ (Protocol.encodeLE 2 fl ++
      (Protocol.encodeLE 8 rq ++ payload))) h32
  have r1 := readLE_encodeLE 2 mt
    (Protocol.encodeLE 2 fl ++ (Protocol.encodeLE 8 rq ++ payload)) h16a
  have r2 := readLE_encodeLE 2 fl (Protocol.encodeLE 8 rq ++ payload) h16b
  have r3 := readLE_encodeLE 8 rq payload h64
  unfold Protocol.write_frame
  rw [List.append_assoc, List.append_assoc, List.append_assoc]
  simp only [Protocol.read_frame, Protocol.read_frame_body, Protocol.readU32,
    Protocol.readU16, Protocol.readU64, r0, r1, r2, r3, hgt, if_false, hbytes]

theorem c4_frame_roundtrip_witness :
    Protocol.read_frame (Protocol.write_frame 5 0 7 [1, 2, 3]) =
      .ok ((⟨3, 5, 0, 7⟩, [1, 2, 3]), []) :=
  c4_frame_roundtrip 5 0 7 [1, 2, 3] (by norm_num) (by norm_num) (by norm_num)
    (by norm_num)

/-! ### C8: HTTP error mapping -/

/-- Claim C8: for every `StoreError`, the HTTP facade maps `NotFound` to
404 — except messages containing "type descriptor", which map to 424 —
`InvalidInput` to 422, and `Corrupt` and `Io` both to 500, always carrying
the error message as the detail. -/
theorem c8_map_error_spec :
    (∀ msg : String, Protocol.containsSub "type descriptor".data msg.data = true →
      Protocol.map_error (.notFound msg) = (424, msg)) ∧
    (∀ msg : String, Protocol.containsSub "type descriptor".data msg.data = false →
      Protocol.map_error (.notFound msg) = (404, msg)) ∧
    (∀ msg : String, Protocol.map_error (.invalidInput msg) = (422, msg)) ∧
    (∀ msg : String, Protocol.map_error (.corrupt msg) = (500, msg)) ∧
    (∀ msg : String, Protocol.map_error (.ioErr msg) = (500, msg)) := by
  refine ⟨?_, ?_, fun _ => rfl, fun _ => rfl, fun _ => rfl⟩ <;>
    intro msg h <;> simp [Protocol.map_error, h]

theorem c8_witness :
    Protocol.map_error (.notFound "missing type descriptor t1") =
      (424, "missing type descriptor t1") ∧
    Protocol.map_error (.notFound "context 7") = (404, "context 7") :=
  ⟨c8_map_error_spec.1 "missing type descriptor t1" (by decide),
   c8_map_error_spec.2.1 "context 7" (by decide)⟩

end Cxdb
